import Mathlib

/-!
Verification of the multi-account session layer of the pCloud Python SDK.

The embedding below follows `pcloud_sdk/account.py`, `pcloud_sdk/account_manager.py`
and `pcloud_sdk/core.py`. The remote API (HTTP transport, `Request`) is external to
the orchestration layer; every remote interaction is therefore a parameter of the
embedded operation: a direct-login call receives the decoded response (or the
transport/decoding failure) as a `LoginResponse` value, the quota query of
`select_account_for_upload` is an oracle `String → QuotaResult` keyed by account id,
and the folder listing of `find_file_in_accounts` is an oracle
`String → Int → Except Unit (List Entry)`. Python exceptions are modelled by
`Except`/`Option` results that also carry the post-raise state where the source
mutates an object before raising.
-/

namespace PCloudSpec

/-- The `Account` entity of `pcloud_sdk/account.py` (`Account.__init__`):
one field per attribute set by the constructor, with the constructor defaults
mirrored in the operations that build accounts. -/
structure Account where
  account_id : String
  access_token : String
  location_id : Int
  auth_type : String
  app_key : String
  app_secret : String
  redirect_uri : String
  email : String
  user_id : Option Int
  quota : Option Int
  used_quota : Option Int
  is_authenticated : Bool
  curl_exec_timeout : Int
deriving DecidableEq, Repr

/-- Constructor call `Account(account_id=..., email=...)` with every other argument left at the
constructor defaults of `account.py`. -/
def Account.mkDefault (account_id : String) (email : String := "") : Account :=
  { account_id := account_id
    access_token := ""
    location_id := 1
    auth_type := "oauth2"
    app_key := ""
    app_secret := ""
    redirect_uri := ""
    email := email
    user_id := none
    quota := none
    used_quota := none
    is_authenticated := false
    curl_exec_timeout := 3600 }

/-- Embeds `Account.set_credentials` (`account.py`). -/
def Account.set_credentials (a : Account) (access_token : String)
    (location_id : Int) (auth_type : String) : Account :=
  { a with
    access_token := access_token
    location_id := location_id
    auth_type := auth_type
    is_authenticated := true }

/-- Embeds `Account.set_user_details` (`account.py`). -/
def Account.set_user_details (a : Account) (email : String) (user_id : Int)
    (quota : Int) (used_quota : Int) : Account :=
  { a with
    email := email
    user_id := some user_id
    quota := some quota
    used_quota := some used_quota }

/-- Embeds `Account.clear_credentials` (`account.py`): clears token and profile facts,
resets `auth_type` to `"oauth2"`, leaves `location_id` untouched (that reset is
commented out in the source). -/
def Account.clear_credentials (a : Account) : Account :=
  { a with
    access_token := ""
    auth_type := "oauth2"
    email := ""
    user_id := none
    quota := none
    used_quota := none
    is_authenticated := false }

/-- One persisted credential record: the JSON dictionary written for one account.
Each field is `Option`-valued because a record read back from disk may lack any
key (`account_info.get(...)` in `core.py`). `saved_at` is the staleness stamp the
loader looks for with `account_info.get("saved_at", 0)`. -/
structure StoredRecord where
  account_id : Option String
  access_token : Option String
  location_id : Option Int
  auth_type : Option String
  app_key : Option String
  app_secret : Option String
  redirect_uri : Option String
  email : Option String
  user_id : Option Int
  quota : Option Int
  used_quota : Option Int
  is_authenticated : Option Bool
  curl_exec_timeout : Option Int
  saved_at : Option Int
deriving DecidableEq, Repr

/-- Embeds `Account.get_info` (`account.py`): the dictionary holds every account field;
the `saved_at` entry is commented out in the source, so the record carries none. -/
def Account.get_info (a : Account) : StoredRecord :=
  { account_id := some a.account_id
    access_token := some a.access_token
    location_id := some a.location_id
    auth_type := some a.auth_type
    app_key := some a.app_key
    app_secret := some a.app_secret
    redirect_uri := some a.redirect_uri
    email := some a.email
    user_id := a.user_id
    quota := a.quota
    used_quota := a.used_quota
    is_authenticated := some a.is_authenticated
    curl_exec_timeout := some a.curl_exec_timeout
    saved_at := none }

/-- Decoded body of the `userinfo?getauth=1` call made by `perform_direct_login`.
Every key the source reads is `Option`-valued, since the remote dictionary may
lack it. -/
structure LoginData where
  result : Int
  auth : Option String
  email : Option String
  userid : Option Int
  quota : Option Int
  usedquota : Option Int
deriving DecidableEq, Repr

/-- Outcome of the one remote call of `perform_direct_login`, seen from the
account layer: a transport failure (`requests.exceptions.RequestException`), an
undecodable body (`json.JSONDecodeError`), or a decoded payload. -/
inductive LoginResponse where
  | transportFailure
  | decodeFailure
  | payload (d : LoginData)
deriving DecidableEq, Repr

/-- The exception kinds the embedded operations can raise. `keyMissing` stands
for the Python `KeyError` on a mandatory response key, `duplicateAccount` for the
`ValueError` of `AccountManager.add_account`, `notFound` for its `KeyError`. -/
inductive PCloudErr where
  | network
  | protocol
  | loginFailed
  | keyMissing
  | duplicateAccount
  | notFound
deriving DecidableEq, Repr

/-- Result of `perform_direct_login`: either a raised exception or a normal
return, in both cases together with the state the `Account` object is left in
(an exception does not roll back mutations already made). -/
inductive DirectLoginResult where
  | raised (e : PCloudErr) (final : Account)
  | ok (final : Account)
deriving DecidableEq, Repr

/-- Embeds `Account.perform_direct_login` (`account.py`), with the outcome of the remote call
passed in as `resp`. On `result == 0 and "auth" in data` it runs
`set_credentials` and then `set_user_details`; the arguments of the latter are
evaluated first, so a payload missing `userid`, `quota` or `usedquota` raises
`KeyError` after `set_credentials` has already run. Any other payload raises the
login-failed `PCloudException` without touching the account. -/
def Account.perform_direct_login (a : Account) (email _password : String)
    (location_id : Int) (resp : LoginResponse) : DirectLoginResult :=
  match resp with
  | .transportFailure => .raised .network a
  | .decodeFailure => .raised .protocol a
  | .payload d =>
    match d.auth with
    | some tok =>
      if d.result = 0 then
        match d.userid, d.quota, d.usedquota with
        | some uid, some q, some uq =>
          .ok ((a.set_credentials tok location_id "direct").set_user_details
                (d.email.getD email) uid q uq)
        | _, _, _ => .raised .keyMissing (a.set_credentials tok location_id "direct")
      else .raised .loginFailed a
    | none => .raised .loginFailed a

/-- The `AccountManager` registry (`account_manager.py`): `accounts` is a Python dict keyed by
`account_id`; it is embedded as the list of its values in insertion order
(Python dicts preserve it), with lookups done by the `account_id` field. -/
structure AccountManager where
  accounts : List Account
  app_key : String
  app_secret : String
deriving DecidableEq, Repr

/-- Embeds `AccountManager.add_account`: raises `ValueError` when the id is already a
key, otherwise inserts (a new dict key goes to the end). -/
def AccountManager.add_account (m : AccountManager) (a : Account) :
    Except PCloudErr AccountManager :=
  if m.accounts.any (fun x => x.account_id = a.account_id) then
    .error .duplicateAccount
  else
    .ok { m with accounts := m.accounts ++ [a] }

/-- Embeds `AccountManager.get_account`: dict lookup, `none` for the raised `KeyError`. -/
def AccountManager.get_account (m : AccountManager) (account_id : String) :
    Option Account :=
  m.accounts.find? (fun x => x.account_id = account_id)

/-- Embeds `AccountManager.list_accounts`, that is `list(self.accounts.values())`. -/
def AccountManager.list_accounts (m : AccountManager) : List Account :=
  m.accounts

/-- In-place mutation of the `Account` object registered under `account_id`:
the dict entry is the same Python object, so mutating it rewrites the registry
entry. The replacement never changes `account_id` in the operations below. -/
def AccountManager.mutateAccount (m : AccountManager) (account_id : String)
    (a : Account) : AccountManager :=
  { m with accounts := m.accounts.map (fun x => if x.account_id = account_id then a else x) }

/-- Embeds `PCloudSDK._save_all_accounts_credentials` (`core.py`): the list of records
serialized to the credential file is `account.get_info()` for every managed
account, in registry order. -/
def _save_all_accounts_credentials (m : AccountManager) : List StoredRecord :=
  m.list_accounts.map Account.get_info

/-- One item of a decoded credential file: `json.load` yields a list whose items
are dictionaries (records) or anything else (skipped with a warning). -/
inductive FileItem where
  | nonDict
  | record (r : StoredRecord)
deriving DecidableEq, Repr

/-- What `_load_saved_credentials` finds at `token_file`: no file, unreadable or
undecodable content, decodable content that is not a list, or a list of items. -/
inductive FileContent where
  | absent
  | unreadable
  | notList
  | list (items : List FileItem)
deriving DecidableEq, Repr

/-- The Python expression `a or b` over the two optional identity strings, as in
`account_info.get("email") or account_info.get("account_id")`: the first operand
wins unless it is falsy (absent or empty). -/
def pyOrStr (a b : Option String) : Option String :=
  match a with
  | some s => if s = "" then b else some s
  | none => b

/-- The identity chosen for a loaded record, `none` when the subsequent
`if not account_id` check skips the record. -/
def identityOf (r : StoredRecord) : Option String :=
  match pyOrStr r.email r.account_id with
  | some s => if s = "" then none else some s
  | none => none

/-- The `Account(...)` constructor call of `_load_saved_credentials` (`core.py`),
with the per-key defaults of the source; `is_authenticated` is
`bool(account_info.get("access_token"))`, not the stored flag. -/
def accountFromRecord (m : AccountManager) (r : StoredRecord) (account_id : String) :
    Account :=
  { account_id := account_id
    access_token := r.access_token.getD ""
    location_id := r.location_id.getD 1
    auth_type := r.auth_type.getD "oauth2"
    app_key := r.app_key.getD m.app_key
    app_secret := r.app_secret.getD m.app_secret
    redirect_uri := r.redirect_uri.getD ""
    email := r.email.getD ""
    user_id := r.user_id
    quota := r.quota
    used_quota := r.used_quota
    is_authenticated := decide (r.access_token.getD "" ≠ "")
    curl_exec_timeout := r.curl_exec_timeout.getD 3600 }

/-- One iteration of the loading loop of `_load_saved_credentials`: non-dict
items and records with no usable identity are skipped; the `ValueError` of `add_account` (duplicate id) is caught and the record skipped. The staleness
check only prints a warning, so it has no effect on the state. -/
def loadOne (m : AccountManager) (item : FileItem) : AccountManager :=
  match item with
  | .nonDict => m
  | .record r =>
    match identityOf r with
    | none => m
    | some account_id =>
      match m.add_account (accountFromRecord m r account_id) with
      | .ok m' => m'
      | .error _ => m

/-- Embeds `PCloudSDK._load_saved_credentials` (`core.py`): an absent, unreadable or
non-list file leaves the registry untouched and returns `False`; a list is
folded through `loadOne` and the call returns `True`. Every failure is caught,
so the load is total. -/
def _load_saved_credentials (m : AccountManager) (content : FileContent) :
    AccountManager × Bool :=
  match content with
  | .absent => (m, false)
  | .unreadable => (m, false)
  | .notList => (m, false)
  | .list items => (items.foldl loadOne m, true)

/-- Outcome of the quota query for one account inside
`select_account_for_upload`: `qerr` when `get_user_operations`/`get_quota`/
`get_used_quota` raises the caught `PCloudException`, otherwise the two figures
(each possibly `None`, which the source checks for explicitly). -/
inductive QuotaResult where
  | qerr
  | qok (total used : Option Int)
deriving DecidableEq, Repr

/-- The filtering loop of `select_account_for_upload` (`core.py`): skip
unauthenticated accounts, skip accounts whose quota query raises, skip missing
figures, keep `(account, free_space)` when `free_space >= file_size`. -/
def collectSuitable (env : String → QuotaResult) (file_size : Int) :
    List Account → List (Account × Int)
  | [] => []
  | a :: rest =>
    if a.is_authenticated then
      match env a.account_id with
      | .qerr => collectSuitable env file_size rest
      | .qok total used =>
        match total, used with
        | some tq, some uq =>
          if file_size ≤ tq - uq then
            (a, tq - uq) :: collectSuitable env file_size rest
          else collectSuitable env file_size rest
        | _, _ => collectSuitable env file_size rest
    else collectSuitable env file_size rest

/-- Stable insertion of a candidate into a list sorted by descending free
space: the new element (which comes earlier in the original list) is placed
before any element with a key not larger than its own. -/
def insertDesc (x : Account × Int) : List (Account × Int) → List (Account × Int)
  | [] => [x]
  | y :: ys => if y.2 ≤ x.2 then x :: y :: ys else y :: insertDesc x ys

/-- Stable descending sort by free space, the embedding of
`suitable_accounts.sort(key=lambda x: x[1], reverse=True)` (the Python sort is
stable, so candidates with equal free space keep their encounter order). -/
def sortDesc : List (Account × Int) → List (Account × Int)
  | [] => []
  | x :: xs => insertDesc x (sortDesc xs)

/-- Embeds `PCloudSDK.select_account_for_upload` (`core.py`): build the suitable list,
raise (`none`) when it is empty, otherwise sort by descending free space and
return the account of the first entry. -/
def select_account_for_upload (env : String → QuotaResult) (m : AccountManager)
    (file_size : Int) : Option Account :=
  let suitable := collectSuitable env file_size m.list_accounts
  match (sortDesc suitable).head? with
  | none => none
  | some (a, _) => some a

/-- One folder-listing entry as consumed by `find_file_in_accounts`: the two
keys it reads plus representative payload the match copies along. -/
structure Entry where
  name : String
  isfile : Bool
  fileid : Option Int
  size : Option Int
deriving DecidableEq, Repr

/-- A match returned by `find_file_in_accounts`: a copy of the entry augmented
with the id and email of the serving account. -/
structure FoundFile where
  entry : Entry
  account_id_found_in : String
  account_email_found_in : String
deriving DecidableEq, Repr

/-- The accumulating search loop of `find_file_in_accounts` (`core.py`):
unauthenticated accounts are skipped; a raising folder listing (`lenv` error) is
caught and the account skipped; otherwise every entry with `isfile` true and an
exactly equal name is appended, annotated with the id and email of the account. -/
def findLoop (lenv : String → Int → Except Unit (List Entry)) (filename : String)
    (fid : Int) : List Account → List FoundFile → List FoundFile
  | [], acc => acc
  | a :: rest, acc =>
    if a.is_authenticated then
      match lenv a.account_id fid with
      | .error _ => findLoop lenv filename fid rest acc
      | .ok contents =>
        findLoop lenv filename fid rest
          (acc ++ (contents.filter (fun e => e.isfile && decide (e.name = filename))).map
            (fun e => ⟨e, a.account_id, a.email⟩))
    else findLoop lenv filename fid rest acc

/-- Embeds `PCloudSDK.find_file_in_accounts` (`core.py`): the loop above over all
accounts, started with an empty result list; a `None` folder id defaults to 0. -/
def find_file_in_accounts (lenv : String → Int → Except Unit (List Entry))
    (m : AccountManager) (filename : String) (folder_id : Option Int) :
    List FoundFile :=
  findLoop lenv filename (folder_id.getD 0) m.list_accounts []

/-- The matches one account contributes to `find_file_in_accounts`. -/
def accountMatches (lenv : String → Int → Except Unit (List Entry))
    (filename : String) (fid : Int) (a : Account) : List FoundFile :=
  if a.is_authenticated then
    match lenv a.account_id fid with
    | .error _ => []
    | .ok contents =>
      (contents.filter (fun e => e.isfile && decide (e.name = filename))).map
        (fun e => ⟨e, a.account_id, a.email⟩)
  else []

/-- Outcome of `PCloudSDK.login`: the early return for an already authenticated
account, a raised exception, or a successful login; each carries the final
registry state, and the two terminal outcomes record whether
`_save_all_accounts_credentials` ran before control left the method. -/
inductive LoginOutcome where
  | alreadyAuthenticated (acc : Account) (m : AccountManager)
  | raised (e : PCloudErr) (m : AccountManager) (saved : Bool)
  | success (acc : Account) (m : AccountManager) (saved : Bool)
deriving DecidableEq, Repr

/-- Embeds `PCloudSDK.login` (`core.py`), with the outcome of the remote call passed in as
`resp` and the token manager flag as `tmEnabled`. A registered account is
mutated in place by `perform_direct_login` (also on its partial-mutation raise
path), then `add_account` is invoked unconditionally; for a registered id that
second add finds the key already present and raises `ValueError`, which the
`except PCloudException` clause does not catch. The save only runs after a
successful add. -/
def login (m : AccountManager) (tmEnabled : Bool) (resp : LoginResponse)
    (email _password : String) (location_id : Int) (force_login : Bool) :
    LoginOutcome :=
  match m.get_account email with
  | some account =>
    if ¬force_login ∧ account.is_authenticated then
      .alreadyAuthenticated account m
    else
      match account.perform_direct_login email _password location_id resp with
      | .raised e acc' => .raised e (m.mutateAccount email acc') false
      | .ok acc' =>
        let m' := m.mutateAccount email acc'
        match m'.add_account acc' with
        | .error e => .raised e m' false
        | .ok m'' => .success acc' m'' tmEnabled
  | none =>
    let account := Account.mkDefault email email
    match account.perform_direct_login email _password location_id resp with
    | .raised e _ => .raised e m false
    | .ok acc' =>
      match m.add_account acc' with
      | .error e => .raised e m false
      | .ok m' => .success acc' m' tmEnabled

/-- Embeds `PCloudSDK.logout` (`core.py`): look the account up (re-raising the
`KeyError` as `none` when absent), clear its credentials in place, then save.
The second component records that the save ran (when the token manager is on). -/
def logout (m : AccountManager) (tmEnabled : Bool) (account_id : String) :
    Option (AccountManager × Bool) :=
  match m.get_account account_id with
  | none => none
  | some account =>
    some (m.mutateAccount account_id account.clear_credentials, tmEnabled)

/-- Saving a registry and loading the written file into a fresh registry
(`_save_all_accounts_credentials` then `_load_saved_credentials` on a file whose
items are exactly the saved records). -/
def roundtrip (m fresh : AccountManager) : AccountManager :=
  (_load_saved_credentials fresh
    (.list ((_save_all_accounts_credentials m).map FileItem.record))).1

/-- The tuple of fields the round-trip claim compares. -/
def savedFields (a : Account) :
    String × String × Int × String × Bool × Option Int × Option Int × Option Int :=
  (a.account_id, a.access_token, a.location_id, a.auth_type, a.is_authenticated,
    a.user_id, a.quota, a.used_quota)

/-- The first candidate holding the maximum free space of a candidate list:
a later candidate replaces the current best only with strictly more free
space. The head of the stable descending sort equals this. -/
def pickBest : List (Account × Int) → Option (Account × Int)
  | [] => none
  | x :: xs =>
    match pickBest xs with
    | none => some x
    | some b => if b.2 ≤ x.2 then some x else some b

/-- An account survives the filtering of `select_account_for_upload`: it is
authenticated, its quota query returns both figures, and its free space is at
least the file size. -/
def survives (env : String → QuotaResult) (file_size : Int) (a : Account) : Bool :=
  a.is_authenticated &&
    match env a.account_id with
    | .qok (some tq) (some uq) => decide (file_size ≤ tq - uq)
    | _ => false

/-- The conditions under which the round-trip reproduces an account: its load
identity resolves back to `account_id` (the loader prefers `email`), and its
stored flag matches the derived one the loader recomputes from the token. -/
def goodAccount (a : Account) : Prop :=
  (a.email = a.account_id ∨ a.email = "") ∧ a.account_id ≠ "" ∧
    a.is_authenticated = decide (a.access_token ≠ "")

instance (a : Account) : Decidable (goodAccount a) := by
  unfold goodAccount; infer_instance

/-- First authenticated witness account, free space 90 under `envW`. -/
def acctW1 : Account :=
  { Account.mkDefault "u1@x" "u1@x" with access_token := "t1", is_authenticated := true }

/-- Second authenticated witness account, free space 60 under `envW`. -/
def acctW2 : Account :=
  { Account.mkDefault "u2@x" "u2@x" with access_token := "t2", is_authenticated := true }

/-- Witness registry with the two authenticated accounts. -/
def mgrW : AccountManager := ⟨[acctW1, acctW2], "", ""⟩

/-- Witness quota oracle: 90 bytes free for the first account, 60 for the
second, a raising query elsewhere. -/
def envW : String → QuotaResult := fun account_id =>
  if account_id = "u1@x" then .qok (some 100) (some 10)
  else if account_id = "u2@x" then .qok (some 100) (some 40)
  else .qerr

/-- A fresh unauthenticated account used by the direct-login witnesses. -/
def acctFresh : Account := Account.mkDefault "c2@x" "c2@x"

/-- A decoded direct-login payload that is success-shaped (`result = 0`, a
token under `auth`) but lacks the mandatory `userid`/`quota`/`usedquota` keys. -/
def dataNoProfile : LoginData :=
  { result := 0, auth := some "tok", email := none, userid := none,
    quota := none, usedquota := none }

/-- An account whose `email` differs from its `account_id`. -/
def acctRenamed : Account :=
  { Account.mkDefault "alpha" "beta@x" with access_token := "t", is_authenticated := true }

/-- Registry holding the account whose identity the loader rewrites. -/
def mgrRenamed : AccountManager := ⟨[acctRenamed], "", ""⟩

/-- An account claiming to be authenticated while holding an empty token,
as the public constructor permits. -/
def acctInconsistent : Account :=
  { Account.mkDefault "c5@x" with is_authenticated := true }

/-- A registry whose only account is unauthenticated. -/
def mgrNoAuth : AccountManager := ⟨[Account.mkDefault "n1@x" "n1@x"], "", ""⟩

/-- A well-formed stored record (the serialization of `acctW1`). -/
def recGood : StoredRecord := Account.get_info acctW1

/-- A stored record carrying a token but neither `account_id` nor `email`. -/
def recNoId : StoredRecord :=
  { account_id := none, access_token := some "z", location_id := none,
    auth_type := none, app_key := none, app_secret := none, redirect_uri := none,
    email := none, user_id := none, quota := none, used_quota := none,
    is_authenticated := none, curl_exec_timeout := none, saved_at := none }

/-- An already-registered, not yet authenticated account for the login witness. -/
def acctReg : Account := Account.mkDefault "c9@x" "c9@x"

/-- Registry already holding `acctReg` before the login call. -/
def mgrReg : AccountManager := ⟨[acctReg], "", ""⟩

/-- A fully populated successful direct-login payload. -/
def dataFull : LoginData :=
  { result := 0, auth := some "newtok", email := some "c9@x", userid := some 7,
    quota := some 1000, usedquota := some 10 }

/-- The empty fresh registry the round-trip counterexample loads into. -/
def mgrEmpty : AccountManager := ⟨[], "", ""⟩

/-- Folder-listing oracle for the search witness: the first account raises,
the second serves two entries. -/
def lenvW : String → Int → Except Unit (List Entry) := fun account_id _ =>
  if account_id = "u1@x" then .error ()
  else if account_id = "u2@x" then
    .ok [⟨"report.txt", true, some 9, some 100⟩, ⟨"report.txt", false, none, none⟩]
  else .ok []

lemma insertDesc_head (x : Account × Int) (s : List (Account × Int)) :
    (insertDesc x s).head? = some (match s with
      | [] => x
      | y :: _ => if y.2 ≤ x.2 then x else y) := by
  cases s with
  | nil => rfl
  | cons y ys =>
    simp only [insertDesc]
    split <;> simp_all

lemma sortDesc_head (l : List (Account × Int)) :
    (sortDesc l).head? = pickBest l := by
  induction l with
  | nil => rfl
  | cons x xs ih =>
    cases h : sortDesc xs with
    | nil =>
      have hpb : pickBest xs = none := by rw [← ih, h]; rfl
      calc (sortDesc (x :: xs)).head? = (insertDesc x (sortDesc xs)).head? := rfl
        _ = (insertDesc x []).head? := by rw [h]
        _ = some x := rfl
        _ = pickBest (x :: xs) := by simp [pickBest, hpb]
    | cons y ys =>
      have hpb : pickBest xs = some y := by rw [← ih, h]; rfl
      have h1 : (sortDesc (x :: xs)).head? = (insertDesc x (y :: ys)).head? := by
        show (insertDesc x (sortDesc xs)).head? = _
        rw [h]
      rw [h1, insertDesc_head]
      simp only [pickBest, hpb]
      by_cases hyx : y.2 ≤ x.2 <;> simp [hyx]

lemma pickBest_mem {l : List (Account × Int)} {b : Account × Int}
    (h : pickBest l = some b) : b ∈ l := by
  induction l with
  | nil => simp [pickBest] at h
  | cons x xs ih =>
    rw [pickBest] at h
    cases hx : pickBest xs with
    | none =>
      rw [hx] at h
      simp only [Option.some.injEq] at h
      simp [← h]
    | some c =>
      rw [hx] at h
      simp only [] at h
      by_cases hc : c.2 ≤ x.2
      · rw [if_pos hc] at h
        simp only [Option.some.injEq] at h
        simp [← h]
      · rw [if_neg hc] at h
        simp only [Option.some.injEq] at h
        subst h
        exact List.mem_cons_of_mem _ (ih hx)

lemma pickBest_eq_none {l : List (Account × Int)} :
    pickBest l = none ↔ l = [] := by
  cases l with
  | nil => simp [pickBest]
  | cons x xs =>
    rw [pickBest]
    cases hx : pickBest xs with
    | none => simp
    | some c => by_cases hc : c.2 ≤ x.2 <;> simp [hc]

lemma pickBest_le {l : List (Account × Int)} {b : Account × Int}
    (h : pickBest l = some b) : ∀ p ∈ l, p.2 ≤ b.2 := by
  induction l generalizing b with
  | nil => simp [pickBest] at h
  | cons x xs ih =>
    intro p hp
    rw [pickBest] at h
    cases hx : pickBest xs with
    | none =>
      rw [hx] at h
      simp only [Option.some.injEq] at h
      subst h
      rcases List.mem_cons.mp hp with hpx | hpxs
      · subst hpx; exact le_refl _
      · rw [pickBest_eq_none.mp hx] at hpxs; simp at hpxs
    | some c =>
      rw [hx] at h
      simp only [] at h
      by_cases hc : c.2 ≤ x.2
      · rw [if_pos hc] at h
        simp only [Option.some.injEq] at h
        subst h
        rcases List.mem_cons.mp hp with hpx | hpxs
        · subst hpx; exact le_refl _
        · exact le_trans (ih hx p hpxs) hc
      · rw [if_neg hc] at h
        simp only [Option.some.injEq] at h
        subst h
        rcases List.mem_cons.mp hp with hpx | hpxs
        · subst hpx; exact le_of_not_le hc
        · exact ih hx p hpxs

lemma pickBest_first {l : List (Account × Int)} {b : Account × Int}
    (h : pickBest l = some b) :
    ∃ l₁ l₂, l = l₁ ++ b :: l₂ ∧ ∀ p ∈ l₁, p.2 < b.2 := by
  induction l with
  | nil => simp [pickBest] at h
  | cons x xs ih =>
    rw [pickBest] at h
    cases hx : pickBest xs with
    | none =>
      rw [hx] at h
      simp only [Option.some.injEq] at h
      subst h
      exact ⟨[], xs, rfl, by simp⟩
    | some c =>
      rw [hx] at h
      simp only [] at h
      by_cases hc : c.2 ≤ x.2
      · rw [if_pos hc] at h
        simp only [Option.some.injEq] at h
        subst h
        exact ⟨[], xs, rfl, by simp⟩
      · rw [if_neg hc] at h
        simp only [Option.some.injEq] at h
        subst h
        obtain ⟨l₁, l₂, heq, hlt⟩ := ih hx
        refine ⟨x :: l₁, l₂, by rw [heq]; rfl, ?_⟩
        intro p hp
        rcases List.mem_cons.mp hp with hpx | hpl
        · subst hpx; exact lt_of_not_le hc
        · exact hlt p hpl

lemma collectSuitable_cons (env : String → QuotaResult) (fs : Int)
    (x : Account) (rest : List Account) :
    collectSuitable env fs (x :: rest) =
      if x.is_authenticated then
        match env x.account_id with
        | .qerr => collectSuitable env fs rest
        | .qok total used =>
          match total, used with
          | some tq, some uq =>
            if fs ≤ tq - uq then (x, tq - uq) :: collectSuitable env fs rest
            else collectSuitable env fs rest
          | _, _ => collectSuitable env fs rest
      else collectSuitable env fs rest := rfl

lemma collectSuitable_cons_subset (env : String → QuotaResult) (fs : Int)
    (x : Account) (rest : List Account) :
    ∀ p ∈ collectSuitable env fs rest, p ∈ collectSuitable env fs (x :: rest) := by
  intro p hp
  rw [collectSuitable_cons]
  cases hxa : x.is_authenticated with
  | false => exact hp
  | true =>
    cases hq : env x.account_id with
    | qerr => exact hp
    | qok total used =>
      cases total with
      | none => exact hp
      | some tq =>
        cases used with
        | none => exact hp
        | some uq =>
          show p ∈ if fs ≤ tq - uq then (x, tq - uq) :: collectSuitable env fs rest
              else collectSuitable env fs rest
          by_cases hle : fs ≤ tq - uq
          · rw [if_pos hle]
            exact List.mem_cons_of_mem _ hp
          · rw [if_neg hle]
            exact hp

lemma mem_collectSuitable {env : String → QuotaResult} {fs : Int}
    {l : List Account} {a : Account} {f : Int}
    (h : (a, f) ∈ collectSuitable env fs l) :
    a ∈ l ∧ a.is_authenticated = true ∧
      ∃ tq uq, env a.account_id = .qok (some tq) (some uq) ∧ f = tq - uq ∧ fs ≤ f := by
  induction l with
  | nil => simp [collectSuitable] at h
  | cons x rest ih =>
    rw [collectSuitable_cons] at h
    cases hxa : x.is_authenticated with
    | false =>
      rw [hxa] at h
      have h' : (a, f) ∈ collectSuitable env fs rest := h
      obtain ⟨hm, hrest⟩ := ih h'
      exact ⟨List.mem_cons_of_mem _ hm, hrest⟩
    | true =>
      rw [hxa] at h
      cases hq : env x.account_id with
      | qerr =>
        rw [hq] at h
        have h' : (a, f) ∈ collectSuitable env fs rest := h
        obtain ⟨hm, hrest⟩ := ih h'
        exact ⟨List.mem_cons_of_mem _ hm, hrest⟩
      | qok total used =>
        rw [hq] at h
        cases total with
        | none =>
          have h' : (a, f) ∈ collectSuitable env fs rest := h
          obtain ⟨hm, hrest⟩ := ih h'
          exact ⟨List.mem_cons_of_mem _ hm, hrest⟩
        | some tq =>
          cases used with
          | none =>
            have h' : (a, f) ∈ collectSuitable env fs rest := h
            obtain ⟨hm, hrest⟩ := ih h'
            exact ⟨List.mem_cons_of_mem _ hm, hrest⟩
          | some uq =>
            have h' : (a, f) ∈ if fs ≤ tq - uq then
                (x, tq - uq) :: collectSuitable env fs rest
                else collectSuitable env fs rest := h
            by_cases hle : fs ≤ tq - uq
            · rw [if_pos hle] at h'
              rcases List.mem_cons.mp h' with he | hr
              · have hax : a = x ∧ f = tq - uq := by
                  constructor
                  · exact congrArg Prod.fst he
                  · exact congrArg Prod.snd he
                obtain ⟨ha1, ha2⟩ := hax
                subst ha1
                refine ⟨List.mem_cons_self _ _, hxa, tq, uq, hq, ha2, ?_⟩
                rw [ha2]
                exact hle
              · obtain ⟨hm, hrest⟩ := ih hr
                exact ⟨List.mem_cons_of_mem _ hm, hrest⟩
            · rw [if_neg hle] at h'
              obtain ⟨hm, hrest⟩ := ih h'
              exact ⟨List.mem_cons_of_mem _ hm, hrest⟩

lemma survives_mem_collectSuitable {env : String → QuotaResult} {fs : Int}
    {l : List Account} {a : Account} (ha : a ∈ l)
    (hs : survives env fs a = true) :
    ∃ f, (a, f) ∈ collectSuitable env fs l := by
  induction l with
  | nil => simp at ha
  | cons x rest ih =>
    rcases List.mem_cons.mp ha with hax | har
    · rw [survives, Bool.and_eq_true] at hs
      obtain ⟨h1, h2⟩ := hs
      cases hq : env a.account_id with
      | qerr => rw [hq] at h2; simp at h2
      | qok total used =>
        rw [hq] at h2
        cases total with
        | none => simp at h2
        | some tq =>
          cases used with
          | none => simp at h2
          | some uq =>
            have hle : fs ≤ tq - uq := of_decide_eq_true h2
            subst hax
            refine ⟨tq - uq, ?_⟩
            rw [collectSuitable_cons, h1, hq]
            show (a, tq - uq) ∈ if fs ≤ tq - uq then
                (a, tq - uq) :: collectSuitable env fs rest
                else collectSuitable env fs rest
            rw [if_pos hle]
            exact List.mem_cons_self _ _
    · obtain ⟨f, hf⟩ := ih har
      exact ⟨f, collectSuitable_cons_subset env fs x rest _ hf⟩

lemma collectSuitable_nil_iff {env : String → QuotaResult} {fs : Int}
    {l : List Account} :
    collectSuitable env fs l = [] ↔ ∀ a ∈ l, survives env fs a = false := by
  constructor
  · intro hnil a ha
    cases hsv : survives env fs a with
    | false => rfl
    | true =>
      obtain ⟨f, hf⟩ := survives_mem_collectSuitable ha hsv
      rw [hnil] at hf
      simp at hf
  · intro hall
    induction l with
    | nil => rfl
    | cons x rest ih =>
      have hx := hall x (List.mem_cons_self x rest)
      have hrest := ih (fun a ha => hall a (List.mem_cons_of_mem _ ha))
      rw [collectSuitable_cons]
      cases hxa : x.is_authenticated with
      | false => exact hrest
      | true =>
        cases hq : env x.account_id with
        | qerr => exact hrest
        | qok total used =>
          cases total with
          | none => exact hrest
          | some tq =>
            cases used with
            | none => exact hrest
            | some uq =>
              rw [survives, hxa, hq] at hx
              have hx' : decide (fs ≤ tq - uq) = false := by
                rw [← Bool.true_and (decide (fs ≤ tq - uq))]
                exact hx
              show (if fs ≤ tq - uq then (x, tq - uq) :: collectSuitable env fs rest
                  else collectSuitable env fs rest) = []
              rw [if_neg (of_decide_eq_false hx')]
              exact hrest

lemma select_eq_some_iff {env : String → QuotaResult} {m : AccountManager}
    {fs : Int} {acc : Account} :
    select_account_for_upload env m fs = some acc ↔
      ∃ f, pickBest (collectSuitable env fs m.list_accounts) = some (acc, f) := by
  unfold select_account_for_upload
  dsimp only
  rw [sortDesc_head]
  cases hp : pickBest (collectSuitable env fs m.list_accounts) with
  | none => simp
  | some b =>
    obtain ⟨a, f⟩ := b
    constructor
    · intro h
      have h' : some a = some acc := h
      refine ⟨f, ?_⟩
      rw [Option.some.inj h']
    · rintro ⟨f', hf'⟩
      have h1 : (a, f) = (acc, f') := Option.some.inj hf'
      have h2 : a = acc := congrArg Prod.fst h1
      show some a = some acc
      rw [h2]

lemma select_eq_none_iff {env : String → QuotaResult} {m : AccountManager}
    {fs : Int} :
    select_account_for_upload env m fs = none ↔
      collectSuitable env fs m.list_accounts = [] := by
  unfold select_account_for_upload
  dsimp only
  rw [sortDesc_head]
  cases hp : pickBest (collectSuitable env fs m.list_accounts) with
  | none => simp [pickBest_eq_none.mp hp]
  | some b =>
    obtain ⟨a, f⟩ := b
    constructor
    · intro h
      exact absurd (show some a = none from h) (by simp)
    · intro h
      rw [h] at hp
      simp [pickBest] at hp

lemma findLoop_eq (lenv : String → Int → Except Unit (List Entry))
    (filename : String) (fid : Int) (l : List Account) :
    ∀ acc : List FoundFile,
      findLoop lenv filename fid l acc
        = acc ++ (l.map (accountMatches lenv filename fid)).flatten := by
  induction l with
  | nil => intro acc; simp [findLoop]
  | cons x rest ih =>
    intro acc
    rw [findLoop]
    cases hxa : x.is_authenticated with
    | false =>
      have hm : accountMatches lenv filename fid x = [] := by
        rw [accountMatches, hxa]
        rfl
      have h1 : findLoop lenv filename fid rest acc
          = acc ++ (rest.map (accountMatches lenv filename fid)).flatten := ih acc
      show findLoop lenv filename fid rest acc = _
      rw [h1, List.map_cons, List.flatten, hm]
      simp
    | true =>
      cases hq : lenv x.account_id fid with
      | error e =>
        have hm : accountMatches lenv filename fid x = [] := by
          rw [accountMatches, hxa, hq]
          rfl
        have h1 : findLoop lenv filename fid rest acc
            = acc ++ (rest.map (accountMatches lenv filename fid)).flatten := ih acc
        show findLoop lenv filename fid rest acc = _
        rw [h1, List.map_cons, List.flatten, hm]
        simp
      | ok contents =>
        have hm : accountMatches lenv filename fid x
            = (contents.filter (fun e => e.isfile && decide (e.name = filename))).map
                (fun e => ⟨e, x.account_id, x.email⟩) := by
          rw [accountMatches, hxa, hq]
          rfl
        have h1 := ih (acc ++ (contents.filter
            (fun e => e.isfile && decide (e.name = filename))).map
              (fun e => (⟨e, x.account_id, x.email⟩ : FoundFile)))
        show findLoop lenv filename fid rest
            (acc ++ (contents.filter (fun e => e.isfile && decide (e.name = filename))).map
              (fun e => ⟨e, x.account_id, x.email⟩)) = _
        rw [h1, List.map_cons, List.flatten, hm]
        simp

lemma find?_map_mutate (account_id : String) (b : Account)
    (hb : b.account_id = account_id) :
    ∀ l : List Account,
      (∃ a, l.find? (fun x => x.account_id = account_id) = some a) →
      (l.map (fun x => if x.account_id = account_id then b else x)).find?
          (fun x => x.account_id = account_id) = some b := by
  intro l
  induction l with
  | nil =>
    rintro ⟨a, ha⟩
    exact absurd ha (by simp)
  | cons x rest ih =>
    rintro ⟨a, ha⟩
    by_cases hx : x.account_id = account_id
    · rw [List.map_cons, if_pos hx]
      exact List.find?_cons_of_pos _ (by simp [hb])
    · rw [List.map_cons, if_neg hx]
      rw [List.find?_cons_of_neg _ (by simp [hx])]
      rw [List.find?_cons_of_neg _ (by simp [hx])] at ha
      exact ih ⟨a, ha⟩

lemma get_account_mutate {m : AccountManager} {account_id : String}
    {b : Account} (hb : b.account_id = account_id)
    (hex : ∃ a, m.get_account account_id = some a) :
    (m.mutateAccount account_id b).get_account account_id = some b := by
  unfold AccountManager.get_account AccountManager.mutateAccount at *
  exact find?_map_mutate account_id b hb m.accounts hex

lemma mutate_preserves_ids (m : AccountManager) (account_id : String)
    (b : Account) (hb : b.account_id = account_id) :
    (m.mutateAccount account_id b).accounts.map Account.account_id
      = m.accounts.map Account.account_id := by
  unfold AccountManager.mutateAccount
  induction m.accounts with
  | nil => rfl
  | cons x rest ih =>
    rw [List.map_cons, List.map_cons]
    by_cases hx : x.account_id = account_id
    · rw [if_pos hx, List.map_cons, hb, hx]
      rw [ih]
    · rw [if_neg hx, List.map_cons]
      rw [ih]

lemma get_account_mem {m : AccountManager} {account_id : String} {a : Account}
    (h : m.get_account account_id = some a) :
    a ∈ m.accounts ∧ a.account_id = account_id := by
  unfold AccountManager.get_account at h
  constructor
  · exact List.mem_of_find?_eq_some h
  · have h2 := List.find?_some h
    simpa using h2

lemma roundtrip_aux (l : List Account) :
    ∀ m : AccountManager,
      ((m.accounts.map Account.account_id) ++ l.map Account.account_id).Nodup →
      (∀ a ∈ l, goodAccount a) →
      ((l.map (fun a => FileItem.record a.get_info)).foldl loadOne m).accounts.map savedFields
        = m.accounts.map savedFields ++ l.map savedFields := by
  induction l with
  | nil =>
    intro m _ _
    simp
  | cons a rest ih =>
    intro m hnd hgood
    obtain ⟨hEmail, hIdNe, hAuth⟩ := hgood a (List.mem_cons_self a rest)
    have hpy : pyOrStr (Account.get_info a).email (Account.get_info a).account_id
        = some a.account_id := by
      show pyOrStr (some a.email) (some a.account_id) = some a.account_id
      rw [pyOrStr]
      rcases hEmail with he | he
      · by_cases hz : a.email = ""
        · rw [if_pos hz]
        · rw [if_neg hz, he]
      · rw [if_pos he]
    have hident : identityOf (Account.get_info a) = some a.account_id := by
      rw [identityOf, hpy]
      show (if a.account_id = "" then none else some a.account_id) = some a.account_id
      rw [if_neg hIdNe]
    have hsf : savedFields (accountFromRecord m a.get_info a.account_id)
        = savedFields a := by
      simp [savedFields, accountFromRecord, Account.get_info, hAuth]
    have hnotmem : a.account_id ∉ m.accounts.map Account.account_id := by
      intro hmem
      have hd := (List.nodup_append.mp hnd).2.2
      exact hd hmem (by simp)
    have hne : ∀ x ∈ m.accounts, x.account_id ≠ a.account_id := by
      intro x hx he
      exact hnotmem (he ▸ List.mem_map_of_mem Account.account_id hx)
    have hany : m.accounts.any
        (fun x => x.account_id
          = (accountFromRecord m a.get_info a.account_id).account_id) = false := by
      rw [List.any_eq_false]
      intro x hx
      simpa using hne x hx
    have hstep : loadOne m (FileItem.record a.get_info)
        = { m with accounts := m.accounts ++ [accountFromRecord m a.get_info a.account_id] } := by
      rw [loadOne, hident]
      show (match AccountManager.add_account m (accountFromRecord m a.get_info a.account_id) with
        | .ok m2 => m2
        | .error _ => m) = _
      rw [AccountManager.add_account, hany]
      rfl
    rw [List.map_cons, List.foldl_cons, hstep]
    have hnd2 : (({ m with accounts := m.accounts
          ++ [accountFromRecord m a.get_info a.account_id] }).accounts.map Account.account_id
        ++ rest.map Account.account_id).Nodup := by
      show ((m.accounts ++ [accountFromRecord m a.get_info a.account_id]).map Account.account_id
        ++ rest.map Account.account_id).Nodup
      rw [List.map_append, List.append_assoc]
      simpa using hnd
    have hrest : ∀ x ∈ rest, goodAccount x :=
      fun x hx => hgood x (List.mem_cons_of_mem _ hx)
    rw [ih _ hnd2 hrest]
    show (m.accounts ++ [accountFromRecord m a.get_info a.account_id]).map savedFields
        ++ rest.map savedFields
      = m.accounts.map savedFields ++ (a :: rest).map savedFields
    rw [List.map_append, List.append_assoc]
    simp [hsf]

/-- C1: every Account returned by select_account_for_upload with file_size ≥ 0
is authenticated, its quota query returned both figures, its free space is at
least file_size, no surviving candidate has strictly larger free space, and the
returned account is the first candidate with maximal free space in registry
iteration order (every earlier candidate has strictly smaller free space). -/
theorem C1_select_account_for_upload_correct
    (env : String → QuotaResult) (m : AccountManager) (file_size : Int)
    (acc : Account) (hfs : 0 ≤ file_size)
    (hsel : select_account_for_upload env m file_size = some acc) :
    acc.is_authenticated = true ∧
      ∃ tq uq, env acc.account_id = .qok (some tq) (some uq) ∧
        file_size ≤ tq - uq ∧
        (∀ p ∈ collectSuitable env file_size m.list_accounts, p.2 ≤ tq - uq) ∧
        ∃ l₁ l₂, collectSuitable env file_size m.list_accounts
            = l₁ ++ (acc, tq - uq) :: l₂ ∧ ∀ p ∈ l₁, p.2 < tq - uq := by
  obtain ⟨f, hpb⟩ := select_eq_some_iff.mp hsel
  obtain ⟨-, hauth, tq, uq, henv, hf, hle⟩ := mem_collectSuitable (pickBest_mem hpb)
  subst hf
  exact ⟨hauth, tq, uq, henv, hle, pickBest_le hpb, pickBest_first hpb⟩

/-- Witness for C1 at a concrete registry of two authenticated accounts with
free space 90 and 60 and a 5-byte file. -/
theorem C1_witness :
    (0 : Int) ≤ 5 ∧
    select_account_for_upload envW mgrW 5 = some acctW1 ∧
    (acctW1.is_authenticated = true ∧
      ∃ tq uq, envW acctW1.account_id = .qok (some tq) (some uq) ∧
        (5 : Int) ≤ tq - uq ∧
        (∀ p ∈ collectSuitable envW 5 mgrW.list_accounts, p.2 ≤ tq - uq) ∧
        ∃ l₁ l₂, collectSuitable envW 5 mgrW.list_accounts
            = l₁ ++ (acctW1, tq - uq) :: l₂ ∧ ∀ p ∈ l₁, p.2 < tq - uq) :=
  ⟨by decide, by decide,
    C1_select_account_for_upload_correct envW mgrW 5 acctW1 (by decide) (by decide)⟩

/-- C2 counterexample: a success-shaped payload (result 0, auth present) that
lacks the mandatory userid/quota/usedquota keys makes perform_direct_login
raise after set_credentials has already run, so a failing call can leave the
account mutated. -/
theorem C2_counterexample :
    ¬ (∀ (a : Account) (email pw : String) (loc : Int) (resp : LoginResponse)
        (e : PCloudErr) (fin : Account),
          a.perform_direct_login email pw loc resp = .raised e fin → fin = a) := by
  intro h
  have hc := h acctFresh "c2@x" "pw" 1 (.payload dataNoProfile) .keyMissing
      (acctFresh.set_credentials "tok" 1 "direct") (by decide)
  exact absurd hc (by decide)

/-- C2 (amended): on the three enumerated failure kinds — transport failure,
undecodable response, or a decoded payload with non-zero result code or no auth
token — perform_direct_login raises and leaves every field of the Account equal
to its pre-call value. -/
theorem C2_perform_direct_login_no_mutation
    (a : Account) (email pw : String) (loc : Int) (resp : LoginResponse)
    (h : resp = .transportFailure ∨ resp = .decodeFailure ∨
      ∃ d, resp = .payload d ∧ ¬(d.result = 0 ∧ d.auth.isSome = true)) :
    ∃ e, a.perform_direct_login email pw loc resp = .raised e a := by
  rcases h with h | h | ⟨d, hd, hbad⟩
  · subst h; exact ⟨.network, rfl⟩
  · subst h; exact ⟨.protocol, rfl⟩
  · subst hd
    have hbody : a.perform_direct_login email pw loc (.payload d)
        = (match d.auth with
          | some tok =>
            if d.result = 0 then
              match d.userid, d.quota, d.usedquota with
              | some uid, some q, some uq =>
                DirectLoginResult.ok ((a.set_credentials tok loc "direct").set_user_details
                  (d.email.getD email) uid q uq)
              | _, _, _ =>
                DirectLoginResult.raised .keyMissing (a.set_credentials tok loc "direct")
            else DirectLoginResult.raised .loginFailed a
          | none => DirectLoginResult.raised .loginFailed a) := rfl
    cases hauth : d.auth with
    | none =>
      refine ⟨.loginFailed, ?_⟩
      rw [hbody, hauth]
    | some tok =>
      have hres : ¬ d.result = 0 := by
        intro h0
        exact hbad ⟨h0, by rw [hauth]; rfl⟩
      refine ⟨.loginFailed, ?_⟩
      rw [hbody, hauth]
      show (if d.result = 0 then
          match d.userid, d.quota, d.usedquota with
          | some uid, some q, some uq =>
            DirectLoginResult.ok ((a.set_credentials tok loc "direct").set_user_details
              (d.email.getD email) uid q uq)
          | _, _, _ =>
            DirectLoginResult.raised .keyMissing (a.set_credentials tok loc "direct")
        else DirectLoginResult.raised .loginFailed a)
        = DirectLoginResult.raised .loginFailed a
      rw [if_neg hres]

/-- Witness for C2 (amended) at a transport failure on a fresh account. -/
theorem C2_witness :
    ((LoginResponse.transportFailure = .transportFailure ∨
        LoginResponse.transportFailure = .decodeFailure ∨
        ∃ d, LoginResponse.transportFailure = .payload d ∧
          ¬(d.result = 0 ∧ d.auth.isSome = true))) ∧
    ∃ e, acctFresh.perform_direct_login "c2@x" "pw" 1 .transportFailure
        = .raised e acctFresh :=
  ⟨Or.inl rfl,
    C2_perform_direct_login_no_mutation acctFresh "c2@x" "pw" 1 .transportFailure
      (Or.inl rfl)⟩

/-- C3 counterexample: saving a registry whose single account has account_id
alpha but email beta@x and loading the file into a fresh registry yields an
account keyed by the email, so no loaded account reproduces the original field
tuple (account_id differs). -/
theorem C3_counterexample :
    ¬ (∀ m : AccountManager, ∀ a ∈ m.accounts,
        ∃ b ∈ (roundtrip m ⟨[], m.app_key, m.app_secret⟩).accounts,
          savedFields b = savedFields a) := by
  intro h
  obtain ⟨b, hb, he⟩ := h mgrRenamed acctRenamed (by decide)
  have hids : (roundtrip mgrRenamed
      ⟨[], mgrRenamed.app_key, mgrRenamed.app_secret⟩).accounts.map Account.account_id
      = ["beta@x"] := by decide
  have hbid : b.account_id = "beta@x" := by
    have hm := List.mem_map_of_mem Account.account_id hb
    rw [hids] at hm
    simpa using hm
  have h1 : b.account_id = "alpha" := congrArg Prod.fst he
  rw [hbid] at h1
  exact absurd h1 (by decide)

/-- C3 (amended): for a registry of accounts with pairwise distinct ids whose
load identity resolves back to account_id (email equal to account_id or empty,
account_id non-empty) and whose stored flag equals the derived one (token
non-empty), saving and loading into a fresh registry reproduces, in order, every
compared field tuple (account_id, access_token, location_id, auth_type,
is_authenticated, user_id, quota, used_quota). -/
theorem C3_roundtrip (m : AccountManager) (ak asec : String)
    (hnd : (m.accounts.map Account.account_id).Nodup)
    (hgood : ∀ a ∈ m.accounts, goodAccount a) :
    (roundtrip m ⟨[], ak, asec⟩).accounts.map savedFields
      = m.accounts.map savedFields := by
  have h := roundtrip_aux m.accounts ⟨[], ak, asec⟩ (by simpa using hnd) hgood
  show ((((m.list_accounts).map Account.get_info).map FileItem.record).foldl
      loadOne ⟨[], ak, asec⟩).accounts.map savedFields = _
  rw [List.map_map]
  simpa using h

/-- Witness for C3 (amended) on a two-account registry with email = id. -/
theorem C3_witness :
    (mgrW.accounts.map Account.account_id).Nodup ∧
    (∀ a ∈ mgrW.accounts, goodAccount a) ∧
    (roundtrip mgrW ⟨[], "k", "s"⟩).accounts.map savedFields
      = mgrW.accounts.map savedFields :=
  ⟨by decide, by decide, C3_roundtrip mgrW "k" "s" (by decide) (by decide)⟩

/-- C4: every record written by the save operation carries no saved_at stamp at
all — Account.get_info emits no such key — so no record is ever stamped with
the save time, contradicting the claim. -/
theorem C4_save_writes_no_saved_at (m : AccountManager) :
    ∀ r ∈ _save_all_accounts_credentials m, r.saved_at = none := by
  intro r hr
  obtain ⟨a, -, rfl⟩ := List.mem_map.mp hr
  rfl

/-- Witness for C4 on a concrete registry. -/
theorem C4_witness :
    Account.get_info acctW1 ∈ _save_all_accounts_credentials mgrW ∧
    (Account.get_info acctW1).saved_at = none :=
  ⟨by decide, C4_save_writes_no_saved_at mgrW _ (by decide)⟩

/-- C5 counterexample: the public constructor accepts is_authenticated as an
argument, so an Account with is_authenticated true and an empty access_token is
reachable by direct construction. -/
theorem C5_counterexample :
    ¬ (∀ a : Account, a.is_authenticated = true → a.access_token ≠ "") := by
  intro h
  exact h acctInconsistent (by decide) (by decide)

/-- C5 (amended): every Account reconstructed at load time satisfies
is_authenticated iff its token is non-empty; clear_credentials always yields an
unauthenticated account with empty token; and set_credentials with a non-empty
token yields an authenticated account with non-empty token. Direct construction
with inconsistent arguments can violate the invariant. -/
theorem C5_auth_invariant :
    (∀ (m : AccountManager) (r : StoredRecord) (id : String),
        identityOf r = some id →
        ((accountFromRecord m r id).is_authenticated = true ↔
          (accountFromRecord m r id).access_token ≠ "")) ∧
    (∀ a : Account, a.clear_credentials.is_authenticated = false ∧
        a.clear_credentials.access_token = "") ∧
    (∀ (a : Account) (tok : String) (loc : Int) (ty : String), tok ≠ "" →
        ((a.set_credentials tok loc ty).is_authenticated = true ∧
          (a.set_credentials tok loc ty).access_token ≠ "")) := by
  refine ⟨?_, ?_, ?_⟩
  · intro m r id _
    show decide (r.access_token.getD "" ≠ "") = true ↔ r.access_token.getD "" ≠ ""
    exact decide_eq_true_iff
  · intro a
    exact ⟨rfl, rfl⟩
  · intro a tok loc ty htok
    exact ⟨rfl, htok⟩

/-- Witness for C5 (amended) at a concrete loaded record and credential set. -/
theorem C5_witness :
    (identityOf recGood = some "u1@x" ∧
      ((accountFromRecord mgrEmpty recGood "u1@x").is_authenticated = true ↔
        (accountFromRecord mgrEmpty recGood "u1@x").access_token ≠ "")) ∧
    ("t5" ≠ "" ∧
      ((Account.mkDefault "w5@x").set_credentials "t5" 1 "direct").is_authenticated = true ∧
      ((Account.mkDefault "w5@x").set_credentials "t5" 1 "direct").access_token ≠ "") :=
  ⟨⟨by decide, C5_auth_invariant.1 mgrEmpty recGood "u1@x" (by decide)⟩,
    ⟨by decide,
      (C5_auth_invariant.2.2 (Account.mkDefault "w5@x") "t5" 1 "direct" (by decide)).1,
      (C5_auth_invariant.2.2 (Account.mkDefault "w5@x") "t5" 1 "direct" (by decide)).2⟩⟩

/-- C6: the search result is the concatenation, in account-iteration order, of
per-account match lists (each match annotated with the id and email of the
serving account); an account whose folder listing raises contributes the empty
list, so matches from the other accounts are still returned; and with no
authenticated account the result is the empty list, never an error. -/
theorem C6_find_file_in_accounts_isolates
    (lenv : String → Int → Except Unit (List Entry)) (m : AccountManager)
    (filename : String) (folder_id : Option Int) :
    (find_file_in_accounts lenv m filename folder_id
      = (m.list_accounts.map (accountMatches lenv filename (folder_id.getD 0))).flatten) ∧
    (∀ a : Account, lenv a.account_id (folder_id.getD 0) = .error () →
      accountMatches lenv filename (folder_id.getD 0) a = []) ∧
    ((∀ a ∈ m.list_accounts, a.is_authenticated = false) →
      find_file_in_accounts lenv m filename folder_id = []) := by
  have h1 : find_file_in_accounts lenv m filename folder_id
      = (m.list_accounts.map (accountMatches lenv filename (folder_id.getD 0))).flatten := by
    unfold find_file_in_accounts
    simpa using findLoop_eq lenv filename (folder_id.getD 0) m.list_accounts []
  refine ⟨h1, ?_, ?_⟩
  · intro a herr
    rw [accountMatches]
    cases hxa : a.is_authenticated with
    | false => rfl
    | true =>
      rw [herr]
      rfl
  · intro hall
    rw [h1]
    rw [List.flatten_eq_nil_iff]
    intro xs hxs
    obtain ⟨a, ha, rfl⟩ := List.mem_map.mp hxs
    rw [accountMatches, hall a ha]
    rfl

/-- Witness for C6 on a registry with no authenticated account. -/
theorem C6_witness :
    (∀ a ∈ mgrNoAuth.list_accounts, a.is_authenticated = false) ∧
    find_file_in_accounts lenvW mgrNoAuth "report.txt" (some 0) = [] :=
  ⟨by decide,
    (C6_find_file_in_accounts_isolates lenvW mgrNoAuth "report.txt" (some 0)).2.2
      (by decide)⟩

/-- C7: selection fails (returns none, the NoSuitableAccountError) iff no
account survives the filtering; a quota query that raises makes the loop skip
the account and continue; and zero authenticated accounts always fails. -/
theorem C7_select_fails_iff_no_survivor (env : String → QuotaResult)
    (m : AccountManager) (file_size : Int) :
    (select_account_for_upload env m file_size = none ↔
      ∀ a ∈ m.list_accounts, survives env file_size a = false) ∧
    (∀ (a : Account) (l : List Account), env a.account_id = .qerr →
      collectSuitable env file_size (a :: l) = collectSuitable env file_size l) ∧
    ((∀ a ∈ m.list_accounts, a.is_authenticated = false) →
      select_account_for_upload env m file_size = none) := by
  refine ⟨?_, ?_, ?_⟩
  · rw [select_eq_none_iff]
    exact collectSuitable_nil_iff
  · intro a l herr
    rw [collectSuitable_cons]
    cases hxa : a.is_authenticated with
    | false => rfl
    | true =>
      rw [herr]
      rfl
  · intro hall
    rw [select_eq_none_iff]
    apply collectSuitable_nil_iff.mpr
    intro a ha
    rw [survives, hall a ha]
    rfl

/-- Witness for C7 on a registry with no authenticated account. -/
theorem C7_witness :
    (∀ a ∈ mgrNoAuth.list_accounts, a.is_authenticated = false) ∧
    select_account_for_upload envW mgrNoAuth 5 = none :=
  ⟨by decide, (C7_select_fails_iff_no_survivor envW mgrNoAuth 5).2.2 (by decide)⟩

/-- C8: loading a file with one well-formed record and one record lacking both
identity keys yields exactly one account in a fresh registry, while an absent,
unreadable/corrupt, or non-list file loads as no saved accounts with the
registry unchanged. -/
theorem C8_load_tolerates :
    (∀ (m : AccountManager) (r1 r2 : StoredRecord) (id : String),
        m.accounts = [] → identityOf r1 = some id →
        r2.account_id = none → r2.email = none →
        (_load_saved_credentials m
          (.list [.record r1, .record r2])).1.accounts.length = 1) ∧
    (∀ m : AccountManager,
        _load_saved_credentials m .absent = (m, false) ∧
        _load_saved_credentials m .unreadable = (m, false) ∧
        _load_saved_credentials m .notList = (m, false)) := by
  constructor
  · intro m r1 r2 id hm h1 h2a h2e
    have hident2 : identityOf r2 = none := by
      rw [identityOf, h2e, h2a]
      rfl
    show (([FileItem.record r1, FileItem.record r2]).foldl loadOne m).accounts.length = 1
    rw [List.foldl_cons, List.foldl_cons, List.foldl_nil]
    have hadd : loadOne m (.record r1)
        = { m with accounts := m.accounts ++ [accountFromRecord m r1 id] } := by
      rw [loadOne, h1]
      show (match AccountManager.add_account m (accountFromRecord m r1 id) with
        | .ok m2 => m2
        | .error _ => m) = _
      rw [AccountManager.add_account, hm]
      rfl
    rw [hadd, loadOne, hident2, hm]
    rfl
  · intro m
    exact ⟨rfl, rfl, rfl⟩

/-- Witness for C8 at a concrete good record and identity-less record. -/
theorem C8_witness :
    mgrEmpty.accounts = [] ∧ identityOf recGood = some "u1@x" ∧
    recNoId.account_id = none ∧ recNoId.email = none ∧
    (_load_saved_credentials mgrEmpty
      (.list [.record recGood, .record recNoId])).1.accounts.length = 1 :=
  ⟨rfl, by decide, rfl, rfl,
    C8_load_tolerates.1 mgrEmpty recGood recNoId "u1@x" rfl (by decide) rfl rfl⟩

/-- C9: for a registered account id, a login that proceeds to the remote call
and succeeds remotely reaches the unconditional registry add, which raises the
duplicate-account error — after the credentials of the Account have already
been updated in the registry (in place) and before any save runs. -/
theorem C9_login_duplicate_after_mutation
    (m : AccountManager) (tm : Bool) (email pw : String) (loc : Int)
    (force_login : Bool) (a : Account) (d : LoginData) (tok : String)
    (uid q uq : Int)
    (hget : m.get_account email = some a)
    (hproceed : force_login = true ∨ a.is_authenticated = false)
    (hres : d.result = 0) (hauth : d.auth = some tok)
    (huid : d.userid = some uid) (hq : d.quota = some q)
    (huq : d.usedquota = some uq) :
    ∃ m', login m tm (.payload d) email pw loc force_login
        = .raised .duplicateAccount m' false ∧
      m'.get_account email
        = some ((a.set_credentials tok loc "direct").set_user_details
            (d.email.getD email) uid q uq) := by
  have hpd : a.perform_direct_login email pw loc (.payload d)
      = .ok ((a.set_credentials tok loc "direct").set_user_details
          (d.email.getD email) uid q uq) := by
    have hbody : a.perform_direct_login email pw loc (.payload d)
        = (match d.auth with
          | some tok =>
            if d.result = 0 then
              match d.userid, d.quota, d.usedquota with
              | some uid, some q, some uq =>
                DirectLoginResult.ok ((a.set_credentials tok loc "direct").set_user_details
                  (d.email.getD email) uid q uq)
              | _, _, _ =>
                DirectLoginResult.raised .keyMissing (a.set_credentials tok loc "direct")
            else DirectLoginResult.raised .loginFailed a
          | none => DirectLoginResult.raised .loginFailed a) := rfl
    rw [hbody, hauth]
    show (if d.result = 0 then
        match d.userid, d.quota, d.usedquota with
        | some uid, some q, some uq =>
          DirectLoginResult.ok ((a.set_credentials tok loc "direct").set_user_details
            (d.email.getD email) uid q uq)
        | _, _, _ =>
          DirectLoginResult.raised .keyMissing (a.set_credentials tok loc "direct")
      else DirectLoginResult.raised .loginFailed a) = _
    rw [if_pos hres, huid, hq, huq]
  have hcond : ¬(¬force_login = true ∧ a.is_authenticated = true) := by
    rintro ⟨hf, ha⟩
    rcases hproceed with h | h
    · exact hf h
    · rw [h] at ha
      exact absurd ha (by simp)
  have haid : a.account_id = email := (get_account_mem hget).2
  have hacc2id : ((a.set_credentials tok loc "direct").set_user_details
      (d.email.getD email) uid q uq).account_id = email := haid
  have hany : (m.mutateAccount email ((a.set_credentials tok loc "direct").set_user_details
        (d.email.getD email) uid q uq)).accounts.any
      (fun x => x.account_id
        = ((a.set_credentials tok loc "direct").set_user_details
            (d.email.getD email) uid q uq).account_id) = true := by
    have hmem := (get_account_mem hget).1
    unfold AccountManager.mutateAccount
    rw [List.any_eq_true]
    refine ⟨if a.account_id = email
        then (a.set_credentials tok loc "direct").set_user_details
          (d.email.getD email) uid q uq
        else a,
      List.mem_map_of_mem _ hmem, ?_⟩
    rw [if_pos haid]
    simp
  have hadd : (m.mutateAccount email ((a.set_credentials tok loc "direct").set_user_details
        (d.email.getD email) uid q uq)).add_account
      ((a.set_credentials tok loc "direct").set_user_details
        (d.email.getD email) uid q uq) = .error .duplicateAccount := by
    rw [AccountManager.add_account, hany]
    rfl
  refine ⟨m.mutateAccount email ((a.set_credentials tok loc "direct").set_user_details
      (d.email.getD email) uid q uq), ?_, ?_⟩
  · unfold login
    rw [hget]
    show (if ¬force_login ∧ a.is_authenticated then
        LoginOutcome.alreadyAuthenticated a m
      else match a.perform_direct_login email pw loc (.payload d) with
        | .raised e acc' => .raised e (m.mutateAccount email acc') false
        | .ok acc' =>
          match (m.mutateAccount email acc').add_account acc' with
          | .error e => .raised e (m.mutateAccount email acc') false
          | .ok m2 => .success acc' m2 tm) = _
    rw [if_neg hcond, hpd]
    show (match (m.mutateAccount email ((a.set_credentials tok loc "direct").set_user_details
          (d.email.getD email) uid q uq)).add_account
        ((a.set_credentials tok loc "direct").set_user_details
          (d.email.getD email) uid q uq) with
      | .error e => LoginOutcome.raised e (m.mutateAccount email
          ((a.set_credentials tok loc "direct").set_user_details
            (d.email.getD email) uid q uq)) false
      | .ok m2 => LoginOutcome.success ((a.set_credentials tok loc "direct").set_user_details
          (d.email.getD email) uid q uq) m2 tm) = _
    rw [hadd]
  · exact get_account_mutate hacc2id ⟨a, hget⟩

/-- Witness for C9 at a concrete registered, unauthenticated account and a
fully populated successful remote payload. -/
theorem C9_witness :
    mgrReg.get_account "c9@x" = some acctReg ∧
    (false = true ∨ acctReg.is_authenticated = false) ∧
    ∃ m', login mgrReg true (.payload dataFull) "c9@x" "pw" 1 false
        = .raised .duplicateAccount m' false ∧
      m'.get_account "c9@x"
        = some ((acctReg.set_credentials "newtok" 1 "direct").set_user_details
            (dataFull.email.getD "c9@x") 7 1000 10) :=
  ⟨by decide, Or.inr (by decide),
    C9_login_duplicate_after_mutation mgrReg true "c9@x" "pw" 1 false acctReg dataFull
      "newtok" 7 1000 10 (by decide) (Or.inr (by decide)) (by decide) (by decide)
      (by decide) (by decide) (by decide)⟩

/-- C10: logging out a registered account keeps it in the registry (lookup
still succeeds and the registry size is unchanged), clears its token, marks it
unauthenticated, resets auth_type to the default oauth2, nulls all profile
fields, and leaves location_id unchanged. -/
theorem C10_logout_clears_in_place
    (m : AccountManager) (tm : Bool) (account_id : String) (a : Account)
    (hget : m.get_account account_id = some a) :
    ∃ m', logout m tm account_id = some (m', tm) ∧
      m'.get_account account_id = some a.clear_credentials ∧
      a.clear_credentials.access_token = "" ∧
      a.clear_credentials.is_authenticated = false ∧
      a.clear_credentials.auth_type = "oauth2" ∧
      a.clear_credentials.email = "" ∧
      a.clear_credentials.user_id = none ∧
      a.clear_credentials.quota = none ∧
      a.clear_credentials.used_quota = none ∧
      a.clear_credentials.location_id = a.location_id ∧
      m'.accounts.length = m.accounts.length := by
  refine ⟨m.mutateAccount account_id a.clear_credentials, ?_, ?_, rfl, rfl, rfl, rfl,
    rfl, rfl, rfl, rfl, ?_⟩
  · unfold logout
    rw [hget]
  · have hid : a.clear_credentials.account_id = account_id := (get_account_mem hget).2
    exact get_account_mutate hid ⟨a, hget⟩
  · show (m.accounts.map _).length = m.accounts.length
    rw [List.length_map]

/-- Witness for C10 at a concrete registered account. -/
theorem C10_witness :
    mgrW.get_account "u1@x" = some acctW1 ∧
    ∃ m', logout mgrW true "u1@x" = some (m', true) ∧
      m'.get_account "u1@x" = some acctW1.clear_credentials ∧
      acctW1.clear_credentials.access_token = "" ∧
      acctW1.clear_credentials.is_authenticated = false ∧
      acctW1.clear_credentials.auth_type = "oauth2" ∧
      acctW1.clear_credentials.email = "" ∧
      acctW1.clear_credentials.user_id = none ∧
      acctW1.clear_credentials.quota = none ∧
      acctW1.clear_credentials.used_quota = none ∧
      acctW1.clear_credentials.location_id = acctW1.location_id ∧
      m'.accounts.length = mgrW.accounts.length :=
  ⟨by decide, C10_logout_clears_in_place mgrW true "u1@x" acctW1 (by decide)⟩

end PCloudSpec
